import Mathlib

set_option maxRecDepth 20000

/-!
Shallow embedding of `scripts/analyze_cursor_db.py` (class `CursorDBAnalyzer`),
the read-only Cursor database analysis tool.

Modelling conventions:

* A SQLite blob value is a `List Nat` of bytes; a SQL NULL value is `none`.
  Python truthiness of the optional value (`if value:`) is: `none` or the
  empty byte string is falsy.
* The Python library calls whose results the script consumes are passed to
  each operation as explicit function arguments, so every theorem holds for
  every behaviour of those libraries:
  - `decodeUtf8` models `bytes.decode('utf-8')` (`none` = the call raises
    `UnicodeDecodeError`);
  - `parseWsJson` models `json.load` on a `workspace.json` text composed
    with the single field access `ws_data.get('folder', '')` the script
    performs (`none` = `json.load` raises);
  - `parseTrack` models `json.loads` on a daily-stats record composed with
    the four `.get(..., 0)` counter accesses (`none` = `json.loads` raises);
  - `parseRecent` models `json.loads` on the recently-opened record composed
    with `.get('entries', [])` and the per-entry `.get('folderUri', '')`
    (`none` = anything inside the `try` block of `get_recent_projects`
    raises).
* `urllib.parse.unquote` is modelled character-exactly at the ASCII level: a
  `%XX` escape with two hex digits becomes the character with that code,
  malformed escapes are kept verbatim.  `pathlib.Path(p).name` is modelled
  as the last nonempty component of `p` after splitting on `/` and `\`.
* An exception that the script does not catch is an `Except.error`; a step
  that cannot raise is a total function.
-/

/-- A blob value from an `ItemTable` row: a byte string. -/
abbrev Bytes := List Nat

/-- Python truthiness of an optional bytes value (`if value:`):
`None` and `b''` are falsy. -/
def bytesTruthy : Option Bytes → Bool
  | none => false
  | some bs => !bs.isEmpty

/-- `len(value)` of an optional bytes value (0 when absent; the script only
reads it under a truthiness guard). -/
def bytesLen : Option Bytes → Nat
  | none => 0
  | some bs => bs.length

/-- One row of a store's `ItemTable`: `(key, value)`. -/
abbrev DbRow := String × Option Bytes

/-- Hex digit test for the `%XX` escapes handled by `urllib.parse.unquote`. -/
def isHexChar (c : Char) : Bool :=
  (decide ('0' ≤ c) && decide (c ≤ '9')) ||
  (decide ('a' ≤ c) && decide (c ≤ 'f')) ||
  (decide ('A' ≤ c) && decide (c ≤ 'F'))

/-- Numeric value of a hex digit character. -/
def hexVal (c : Char) : Nat :=
  if decide ('0' ≤ c) && decide (c ≤ '9') then c.toNat - '0'.toNat
  else if decide ('a' ≤ c) && decide (c ≤ 'f') then c.toNat - 'a'.toNat + 10
  else if decide ('A' ≤ c) && decide (c ≤ 'F') then c.toNat - 'A'.toNat + 10
  else 0

/-- Character-level model of `urllib.parse.unquote`: decode `%XX` escapes,
keep malformed escapes verbatim. -/
def unquoteChars : List Char → List Char
  | [] => []
  | c :: rest =>
    if c = '%' then
      match rest with
      | a :: b :: rest2 =>
        if isHexChar a && isHexChar b then
          Char.ofNat (16 * hexVal a + hexVal b) :: unquoteChars rest2
        else c :: unquoteChars (a :: b :: rest2)
      | other => c :: unquoteChars other
    else c :: unquoteChars rest
termination_by l => l.length
decreasing_by
  all_goals simp_all [List.length_cons]
  omega

/-- Model of `urllib.parse.unquote`. -/
def unquote (s : String) : String := String.mk (unquoteChars s.data)

/-- Does the pattern (first argument) start the list (second argument)?
Helper for `strStartsWith` and `strReplace`. -/
def strStartsWithChars : List Char → List Char → Bool
  | [], _ => true
  | _ :: _, [] => false
  | p :: ps, c :: cs => p == c && strStartsWithChars ps cs

/-- Model of Python `str.startswith(pat)`. -/
def strStartsWith (s pat : String) : Bool := strStartsWithChars pat.data s.data

/-- Left-to-right, non-overlapping replacement of `pat` by `rep`; helper for
`strReplace`. -/
def replaceChars (pat rep : List Char) : List Char → List Char
  | [] => []
  | c :: cs =>
    if h : pat ≠ [] ∧ strStartsWithChars pat (c :: cs) then
      rep ++ replaceChars pat rep ((c :: cs).drop pat.length)
    else
      c :: replaceChars pat rep cs
termination_by l => l.length
decreasing_by
  · obtain ⟨h1, -⟩ := h
    have : 1 ≤ pat.length := by
      cases pat
      · simp at h1
      · simp
    simp [List.length_drop]
    omega
  · simp

/-- Model of Python `str.replace(pat, rep)` for nonempty `pat`. -/
def strReplace (s pat rep : String) : String :=
  String.mk (replaceChars pat.data rep.data s.data)

/-- Split at every separator character; helper for `pathName`. -/
def splitChars (p : Char → Bool) : List Char → List (List Char)
  | [] => [[]]
  | c :: cs =>
    if p c then [] :: splitChars p cs
    else
      match splitChars p cs with
      | [] => [[c]]
      | t :: ts => (c :: t) :: ts

/-- Model of `pathlib.Path(p).name`: the last nonempty path component
(splitting on both separators, as the original ran on Windows). -/
def pathName (p : String) : String :=
  String.mk
    ((((splitChars (fun c => c == '/' || c == '\\') p.data).filter
        fun t => t ≠ []).getLast?).getD [])

/-- Lookup in an association list.  The Python dicts this models
(`self.global_data`, built from an `ItemTable` whose keys are unique) have
unique keys, so the first match is the dict entry. -/
def alookup {α : Type} (m : List (String × α)) (k : String) : Option α :=
  (m.find? fun p => p.1 == k).map fun p => p.2

/-- Python `d[key] = v` on a dict rendered as an association list: replace in
place when the key is present, append otherwise. -/
def dictInsert {α : Type} (m : List (String × α)) (k : String) (v : α) :
    List (String × α) :=
  match m with
  | [] => [(k, v)]
  | (k0, v0) :: rest =>
    if k0 == k then (k, v) :: rest else (k0, v0) :: dictInsert rest k v

/-- Python `defaultdict(list)[k].append(v)`: append `v` to the bucket of `k`,
keeping first-insertion key order. -/
def groupInsert (m : List (String × List String)) (k : String) (v : String) :
    List (String × List String) :=
  match m with
  | [] => [(k, [v])]
  | (k0, vs) :: rest =>
    if k0 == k then (k0, vs ++ [v]) :: rest else (k0, vs) :: groupInsert rest k v

/-- Lexicographic code-point comparison of character lists; helper for
`strLe`. -/
def charListLe : List Char → List Char → Bool
  | [], _ => true
  | _ :: _, [] => false
  | a :: as, b :: bs =>
    if a.toNat < b.toNat then true
    else if b.toNat < a.toNat then false
    else charListLe as bs

/-- Python string comparison: lexicographic on code points. -/
def strLe (a b : String) : Bool := charListLe a.data b.data

/-- Insert `a` into `l`, after every element `b` with `le b a`.  Helper for
`pySorted`. -/
def insertSorted {α : Type} (le : α → α → Bool) (a : α) : List α → List α
  | [] => [a]
  | b :: l => if le b a then b :: insertSorted le a l else a :: b :: l

/-- Model of Python's `sorted(...)`: a stable sort (insertion sort; Python
uses a different stable algorithm, but the script depends only on the
sorted order, not on how it is computed). -/
def pySorted {α : Type} (le : α → α → Bool) (l : List α) : List α :=
  l.foldl (fun acc a => insertSorted le a acc) []

/-- `load_global_data`, lines 45-52: build `self.global_data` from the rows
of the global store.  A NULL or empty value stores nothing; a value whose
decoding raises stores the sized `<BLOB: n bytes>` placeholder; a decodable
value stores the decoded text.  No exception escapes this loop. -/
def load_global_data (decodeUtf8 : Bytes → Option String) (rows : List DbRow) :
    List (String × String) :=
  rows.filterMap fun kv =>
    match kv.2 with
    | none => none
    | some bs =>
      if bs.isEmpty then none
      else
        match decodeUtf8 bs with
        | some s => some (kv.1, s)
        | none => some (kv.1, "<BLOB: " ++ Nat.repr bs.length ++ " bytes>")

/-- The one field the script reads from a parsed `workspace.json`
(`ws_data.get('folder', '')`). -/
structure WsDesc where
  folder : String
deriving DecidableEq

/-- One subdirectory of `workspaceStorage`, together with the files the
script may open inside it: the text of `workspace.json` when that file
exists, and the rows of `state.vscdb` when that database file exists. -/
structure WsDir where
  name : String
  wsJson : Option String
  db : Option (List DbRow)

/-- `self.workspaces[workspace_id]` as built by `discover_workspaces`.
The `db` field models the store file reachable through the recorded
`db_path` (`none` when `db_path` is `None`). -/
structure WorkspaceInfo where
  workspace_id : String
  folder_uri : String
  folder_path : String
  project_name : String
  db_exists : Bool
  db : Option (List DbRow)

/-- An exception the script does not catch. -/
inductive PyErr where
  /-- `json.load` raised while reading `workspace.json` in this workspace
  directory (line 77 is outside any `try`). -/
  | jsonDecodeError (dirName : String)
deriving DecidableEq

/-- `discover_workspaces`, lines 66-97: scan the workspace directories; a
directory without `workspace.json` is skipped silently; a present
`workspace.json` is parsed by `json.load`, whose failure is an uncaught
exception. -/
def discover_workspaces (parseWsJson : String → Option WsDesc) :
    List WsDir → Except PyErr (List WorkspaceInfo)
  | [] => .ok []
  | d :: ds =>
    match d.wsJson with
    | none => discover_workspaces parseWsJson ds
    | some content =>
      match parseWsJson content with
      | none => .error (.jsonDecodeError d.name)
      | some wsd =>
        let folder_uri := wsd.folder
        let folder_path := unquote (strReplace folder_uri "file:///" "")
        match discover_workspaces parseWsJson ds with
        | .error e => .error e
        | .ok rest =>
          .ok ({ workspace_id := d.name
                 folder_uri := folder_uri
                 folder_path := folder_path
                 project_name := pathName folder_path
                 db_exists := d.db.isSome
                 db := d.db } :: rest)

/-- The statistics record built by `analyze_workspace_db`, lines 115-121. -/
structure Stats where
  total_records : Nat
  ai_service_prompts : Nat
  ai_service_generations : Nat
  composer_data : Nat
  total_sizes : List (String × Nat)
deriving DecidableEq

/-- The zero-initialised statistics of lines 115-121. -/
def initStats : Stats :=
  { total_records := 0
    ai_service_prompts := 0
    ai_service_generations := 0
    composer_data := 0
    total_sizes := [] }

/-- Loop body of `analyze_workspace_db`, lines 127-138. -/
def statsStep (s : Stats) (row : DbRow) : Stats :=
  let s1 := { s with total_records := s.total_records + 1 }
  let s2 :=
    if bytesTruthy row.2 then
      { s1 with total_sizes := dictInsert s1.total_sizes row.1 (bytesLen row.2) }
    else s1
  if row.1 == "aiService.prompts" then
    { s2 with ai_service_prompts := if bytesTruthy row.2 then bytesLen row.2 else 0 }
  else if row.1 == "aiService.generations" then
    { s2 with ai_service_generations := if bytesTruthy row.2 then bytesLen row.2 else 0 }
  else if row.1 == "composer.composerData" then
    { s2 with composer_data := if bytesTruthy row.2 then bytesLen row.2 else 0 }
  else s2

/-- The scan over all rows of one workspace store, lines 123-138. -/
def computeStats (rows : List DbRow) : Stats := rows.foldl statsStep initStats

/-- `analyze_workspace_db`, lines 104-141: `None` when the workspace is
unknown or its store does not exist, the scanned statistics otherwise. -/
def analyze_workspace_db (wss : List WorkspaceInfo) (workspace_id : String) :
    Option Stats :=
  match wss.find? fun w => w.workspace_id == workspace_id with
  | none => none
  | some w => if w.db_exists then w.db.map computeStats else none

/-- `analyze_all_workspaces`, lines 143-150: attach statistics to every
workspace whose store could be analyzed. -/
def analyze_all_workspaces (wss : List WorkspaceInfo) : List (String × Stats) :=
  wss.filterMap fun w =>
    (analyze_workspace_db wss w.workspace_id).map fun s => (w.workspace_id, s)

/-- The four counters `analyze_global_tracking` reads with `.get(..., 0)`
from one parsed daily-stats record. -/
structure TrackStats where
  tabSuggestedLines : Int
  tabAcceptedLines : Int
  composerSuggestedLines : Int
  composerAcceptedLines : Int
deriving DecidableEq

/-- What `analyze_global_tracking` prints for one tracking record: the four
counters and the two acceptance rates, each rate present exactly when its
`if ... > 0:` guard held. -/
structure TrackReport where
  key : String
  tabSuggested : Int
  tabAccepted : Int
  composerSuggested : Int
  composerAccepted : Int
  tabRate : Option ℚ
  composerRate : Option ℚ
deriving DecidableEq

/-- The key filter of line 166. -/
def trackKeyMatches (k : String) : Bool :=
  strStartsWith k "aiCodeTracking.dailyStats"

/-- Per-record rendering of lines 177-195, including the division guards of
lines 189 and 192 (the Python floats are modelled as rationals). -/
def renderTrack (k : String) (t : TrackStats) : TrackReport :=
  { key := k
    tabSuggested := t.tabSuggestedLines
    tabAccepted := t.tabAcceptedLines
    composerSuggested := t.composerSuggestedLines
    composerAccepted := t.composerAcceptedLines
    tabRate :=
      if 0 < t.tabSuggestedLines then
        some ((t.tabAcceptedLines : ℚ) / (t.tabSuggestedLines : ℚ) * 100)
      else none
    composerRate :=
      if 0 < t.composerSuggestedLines then
        some ((t.composerAcceptedLines : ℚ) / (t.composerSuggestedLines : ℚ) * 100)
      else none }

/-- `analyze_global_tracking`, lines 160-195: collect the records under the
daily-stats key whose JSON parse succeeds (a parse failure is swallowed by
the bare `except: pass`), then render them in sorted key order. -/
def analyze_global_tracking (parseTrack : String → Option TrackStats)
    (global_data : List (String × String)) : List TrackReport :=
  let tracking := global_data.filterMap fun kv =>
    if trackKeyMatches kv.1 then (parseTrack kv.2).map fun t => (kv.1, t) else none
  (pySorted (fun a b => strLe a.1 b.1) tracking).map fun kv =>
    renderTrack kv.1 kv.2

/-- `project_map` of lines 201-207: group workspace ids by project name in
first-insertion order. -/
def project_map (wss : List WorkspaceInfo) : List (String × List String) :=
  wss.foldl (fun m w => groupInsert m w.project_name w.workspace_id) []

/-- The `sorted(project_map.items())` traversal order used by both output
sections of `generate_project_mapping` (group keys are unique, so sorting
the pairs by key models `sorted(project_map.keys())` as well). -/
def sortedProjects (wss : List WorkspaceInfo) : List (String × List String) :=
  pySorted (fun a b => strLe a.1 b.1) (project_map wss)

/-- One line of the printed name-to-ids mapping section, lines 216-220:
project name, its workspace ids, and whether the duplicate-name marker
`(重名!)` was printed. -/
def mapping_lines (wss : List WorkspaceInfo) :
    List (String × List String × Bool) :=
  (sortedProjects wss).map fun p => (p.1, p.2, decide (1 < p.2.length))

/-- One entry of the suggested `projects.json` object, lines 236-239.  The
emitted JSON repeats the display name as both the object key and the `name`
field, so a single `display_name` field models both. -/
structure ConfigEntry where
  display_name : String
  workspace_id : String
  path : String
deriving DecidableEq

/-- The entries emitted for one project-name group, lines 227-239: a group
of two or more gets 1-based `-i` suffixes, a singleton keeps its name. -/
def renderGroup (wss : List WorkspaceInfo) (project_name : String)
    (ids : List String) : List ConfigEntry :=
  ids.enum.map fun iw =>
    { display_name :=
        if 1 < ids.length then project_name ++ "-" ++ Nat.repr (iw.1 + 1)
        else project_name
      workspace_id := iw.2
      path := ((wss.find? fun w => w.workspace_id == iw.2).map
                 fun w => w.folder_path).getD "" }

/-- The suggested configuration printed by `generate_project_mapping`,
lines 223-245. -/
def suggested_config (wss : List WorkspaceInfo) : List ConfigEntry :=
  (sortedProjects wss).flatMap fun p => renderGroup wss p.1 p.2

/-- One entry of the recently-opened record (`entry.get('folderUri', '')`). -/
structure RecentEntry where
  folderUri : String
deriving DecidableEq

/-- What `get_recent_projects` prints for one rendered entry: the 1-based
index, the decoded path and name, and the matched workspace id when the
inner loop of lines 269-272 found one. -/
structure RenderedRecent where
  index : Nat
  project_name : String
  folder_path : String
  wsMatch : Option String
deriving DecidableEq

/-- The three possible outcomes of `get_recent_projects`: the record key is
absent (line 253), the record fails to parse (line 276), or the first
`limit` entries are rendered. -/
inductive RecentOut where
  | notFound
  | parseFailed
  | shown (entries : List RenderedRecent)
deriving DecidableEq

/-- Rendering of one indexed entry, lines 260-273.  The workspace match of
lines 269-272 reports the first discovered workspace whose `folder_uri`
equals the entry's `folderUri` exactly. -/
def renderRecent (wss : List WorkspaceInfo) (ie : Nat × RecentEntry) :
    RenderedRecent :=
  let folder_path := unquote (strReplace ie.2.folderUri "file:///" "")
  { index := ie.1 + 1
    project_name := pathName folder_path
    folder_path := folder_path
    wsMatch := ((wss.find? fun w => w.folder_uri == ie.2.folderUri).map
                  fun w => w.workspace_id) }

/-- `get_recent_projects`, lines 247-276. -/
def get_recent_projects (parseRecent : String → Option (List RecentEntry))
    (wss : List WorkspaceInfo) (global_data : List (String × String))
    (limit : Nat) : RecentOut :=
  match alookup global_data "history.recentlyOpenedPathsList" with
  | none => .notFound
  | some v =>
    match parseRecent v with
    | none => .parseFailed
    | some entries => .shown (((entries.take limit).enum).map (renderRecent wss))

/-- The Python library behaviours a run consumes, bundled. -/
structure Libs where
  decodeUtf8 : Bytes → Option String
  parseWsJson : String → Option WsDesc
  parseTrack : String → Option TrackStats
  parseRecent : String → Option (List RecentEntry)

/-- The on-disk state a run reads: the global store's rows (`none` when
`state.vscdb` does not exist) and the workspace-storage subdirectories
(`none` when that directory does not exist). -/
structure Env where
  globalDb : Option (List DbRow)
  wsStorage : Option (List WsDir)

/-- Everything `run_full_analysis` computes and prints, step by step. -/
structure RunResult where
  /-- The missing-store message of line 33 was printed. -/
  globalMissing : Bool
  /-- The missing-directory message of line 62 was printed. -/
  wsStorageMissing : Bool
  global_data : List (String × String)
  workspaces : List WorkspaceInfo
  wsStats : List (String × Stats)
  tracking : List TrackReport
  mappingSection : List (String × List String × Bool)
  config : List ConfigEntry
  recent : RecentOut

/-- `run_full_analysis`, lines 278-303: the six steps in their fixed order.
The only modelled step that can raise is workspace discovery; its exception
aborts the run (nothing in `run_full_analysis` catches it). -/
def run_full_analysis (libs : Libs) (env : Env) : Except PyErr RunResult :=
  let global_data :=
    match env.globalDb with
    | none => []
    | some rows => load_global_data libs.decodeUtf8 rows
  match discover_workspaces libs.parseWsJson (env.wsStorage.getD []) with
  | .error e => .error e
  | .ok wss =>
    .ok { globalMissing := env.globalDb.isNone
          wsStorageMissing := env.wsStorage.isNone
          global_data := global_data
          workspaces := wss
          wsStats := analyze_all_workspaces wss
          tracking := analyze_global_tracking libs.parseTrack global_data
          mappingSection := mapping_lines wss
          config := suggested_config wss
          recent := get_recent_projects libs.parseRecent wss global_data 10 }

/-- `main`, lines 306-309 (named `pyMain` here because Lean reserves `main`
for executables): construct the analyzer and run the full analysis.  There
is no `try`/`except` here (nor anywhere on this path), so `main` installs no
top-level exception handler: whatever `run_full_analysis` raises escapes
`main` unchanged. -/
def pyMain (libs : Libs) (env : Env) : Except PyErr RunResult :=
  run_full_analysis libs env

/-! Concrete instances used to evaluate the theorems below on closed inputs.
Each `w...` definition is a small store, directory listing, or library
behaviour (the latter standing for what the real Python library returns on
the specific texts used next to it). -/

/-- A `json.loads` behaviour for tracking records: two texts parse, every
other text raises. -/
def wTrackParse : String → Option TrackStats := fun s =>
  if s = "day1" then some { tabSuggestedLines := 10, tabAcceptedLines := 5,
                            composerSuggestedLines := 7, composerAcceptedLines := 0 }
  else if s = "day2" then some { tabSuggestedLines := 0, tabAcceptedLines := 0,
                                 composerSuggestedLines := 3, composerAcceptedLines := 3 }
  else none

/-- A global mapping with two parsable tracking records, one record outside
the tracking key space, and one unparsable tracking record. -/
def wTrackGd : List (String × String) :=
  [("aiCodeTracking.dailyStats.2025-06-01", "day1"),
   ("other.key", "day1"),
   ("aiCodeTracking.dailyStats.2025-06-02", "day2"),
   ("aiCodeTracking.dailyStats.2025-06-03", "garbage")]

/-- A `json.load` behaviour for `workspace.json`: the text `"ok"` parses,
everything else raises. -/
def wParseWs : String → Option WsDesc := fun s =>
  if s = "ok" then some { folder := "file:///home/u/proj" } else none

/-- Three workspace directories: two with a parsable `workspace.json`, one
without the file. -/
def wDirs : List WsDir :=
  [{ name := "w1", wsJson := some "ok", db := none },
   { name := "w2", wsJson := none, db := some [] },
   { name := "w3", wsJson := some "ok", db := some [] }]

/-- A `bytes.decode('utf-8')` behaviour: the byte string `[200]` raises,
everything else decodes to `"txt"`. -/
def wDecode : Bytes → Option String := fun bs =>
  if bs = [200] then none else some "txt"

/-- Global-store rows with a decodable value, an undecodable value, a NULL
value and an empty value. -/
def wRows : List DbRow :=
  [("g", some [104, 105]), ("blob", some [200]), ("nul", none), ("emp", some [])]

/-- Workspace-store rows: the three well-known keys with NULL or empty
values and one ordinary record. -/
def wStatsRows : List DbRow :=
  [("aiService.prompts", some []), ("aiService.generations", none),
   ("composer.composerData", some []), ("x", some [1, 2])]

/-- Three discovered workspaces, two of which share the project name
`proj`. -/
def wMapWss : List WorkspaceInfo :=
  [{ workspace_id := "id1", folder_uri := "file:///a/proj",
     folder_path := "a/proj", project_name := "proj",
     db_exists := false, db := none },
   { workspace_id := "id2", folder_uri := "file:///b/proj",
     folder_path := "b/proj", project_name := "proj",
     db_exists := false, db := none },
   { workspace_id := "id3", folder_uri := "file:///b/other",
     folder_path := "b/other", project_name := "other",
     db_exists := false, db := none }]

/-- One discovered workspace whose store holds exactly the two records of
the end-to-end scenario (37 bytes of prompts, 12 bytes of composer data). -/
def wScenarioWss : List WorkspaceInfo :=
  [{ workspace_id := "ws1", folder_uri := "file:///home/u/proj",
     folder_path := "home/u/proj", project_name := "proj",
     db_exists := true,
     db := some [("aiService.prompts", some (List.replicate 37 65)),
                 ("composer.composerData", some (List.replicate 12 66))] }]

/-- The three entries of the concrete recently-opened record. -/
def wRecEntries : List RecentEntry :=
  [{ folderUri := "file:///a/proj" },
   { folderUri := "file:///zzz" },
   { folderUri := "file:///b/other" }]

/-- A `json.loads` behaviour for the recently-opened record: the text `"r"`
parses to three entries, everything else raises. -/
def wRecParse : String → Option (List RecentEntry) := fun s =>
  if s = "r" then some wRecEntries else none

/-- A global mapping holding the recently-opened record under its key. -/
def wRecGd : List (String × String) :=
  [("history.recentlyOpenedPathsList", "r")]

/-- Library behaviours on which every parse raises (matching the file
contents of `badEnv`, which are not valid JSON). -/
def stubLibs : Libs :=
  { decodeUtf8 := fun _ => none
    parseWsJson := fun _ => none
    parseTrack := fun _ => none
    parseRecent := fun _ => none }

/-- An on-disk state whose single workspace directory holds a malformed
`workspace.json`, so `json.load` raises at line 77. -/
def badEnv : Env :=
  { globalDb := none
    wsStorage := some [{ name := "wsX", wsJson := some "not-json", db := none }] }

/-- Library behaviours for the global-store-absent scenario: the one
`workspace.json` text `"ok"` parses, everything else raises. -/
def wRunLibs : Libs :=
  { decodeUtf8 := fun _ => none
    parseWsJson := wParseWs
    parseTrack := fun _ => none
    parseRecent := fun _ => none }

/-- An on-disk state with no global store and two workspace directories. -/
def wRunEnv : Env :=
  { globalDb := none
    wsStorage := some [{ name := "d1", wsJson := some "ok", db := none },
                       { name := "d2", wsJson := none, db := none }] }

/-- Reference decimal rendering (most significant digit first).  Used only
to reason about `Nat.repr`, whose core loop `Nat.toDigitsCore` is
fuel-indexed. -/
def natChars (n : Nat) : List Char :=
  if n < 10 then [Nat.digitChar n]
  else natChars (n / 10) ++ [Nat.digitChar (n % 10)]
decreasing_by
  exact Nat.div_lt_self (by omega) (by omega)

/-! ## Helper lemmas -/

/-- `filterMap` keeps exactly the elements on which `f` succeeds. -/
theorem length_filterMap_eq_count {α β : Type} (f : α → Option β)
    (p : α → Bool) (hfp : ∀ a, (f a).isSome = p a) (l : List α) :
    (l.filterMap f).length = (l.filter p).length := by
  induction l with
  | nil => rfl
  | cons a l ih =>
    have hpa := hfp a
    cases h : f a <;> rw [h] at hpa <;> simp only [Option.isSome] at hpa <;>
      simp [List.filterMap_cons, List.filter_cons, h, ← hpa, ih]

theorem length_insertSorted {α : Type} (le : α → α → Bool) (a : α)
    (l : List α) : (insertSorted le a l).length = l.length + 1 := by
  induction l with
  | nil => rfl
  | cons b l ih =>
    unfold insertSorted
    split <;> simp [ih]

theorem mem_insertSorted {α : Type} (le : α → α → Bool) (a x : α)
    (l : List α) : x ∈ insertSorted le a l ↔ x = a ∨ x ∈ l := by
  induction l with
  | nil => simp [insertSorted]
  | cons b l ih =>
    unfold insertSorted
    split <;> simp [ih] <;> tauto

theorem length_pySorted {α : Type} (le : α → α → Bool) (l : List α) :
    (pySorted le l).length = l.length := by
  suffices h : ∀ acc : List α,
      (l.foldl (fun acc a => insertSorted le a acc) acc).length
        = acc.length + l.length by
    simpa using h []
  induction l with
  | nil => simp
  | cons b l ih =>
    intro acc
    simp only [List.foldl_cons, ih, length_insertSorted, List.length_cons]
    omega

theorem mem_pySorted {α : Type} (le : α → α → Bool) (x : α) (l : List α) :
    x ∈ pySorted le l ↔ x ∈ l := by
  suffices h : ∀ acc : List α,
      (x ∈ l.foldl (fun acc a => insertSorted le a acc) acc
        ↔ x ∈ acc ∨ x ∈ l) by
    simpa using h []
  induction l with
  | nil => simp
  | cons b l ih =>
    intro acc
    simp only [List.foldl_cons, ih, mem_insertSorted, List.mem_cons]
    tauto

/-- In an association list with pairwise distinct keys, a key determines its
value. -/
theorem nodup_keys_val_eq {α : Type} {l : List (String × α)}
    (hnd : (l.map Prod.fst).Nodup) {k : String} {a b : α}
    (ha : (k, a) ∈ l) (hb : (k, b) ∈ l) : a = b := by
  induction l with
  | nil => simp at ha
  | cons p l ih =>
    simp only [List.map_cons, List.nodup_cons] at hnd
    rcases List.mem_cons.mp ha with heqa | ha2
    · rcases List.mem_cons.mp hb with heqb | hb2
      · rw [← heqa] at heqb
        exact (Prod.mk.injEq _ _ _ _ ▸ heqb).2.symm
      · exfalso
        exact hnd.1 (heqa ▸ List.mem_map.mpr ⟨(k, b), hb2, rfl⟩)
    · rcases List.mem_cons.mp hb with heqb | hb2
      · exfalso
        exact hnd.1 (heqb ▸ List.mem_map.mpr ⟨(k, a), ha2, rfl⟩)
      · exact ih hnd.2 ha2 hb2

/-- A successful `alookup` found an entry of the list. -/
theorem alookup_eq_some_mem {α : Type} {m : List (String × α)} {k : String}
    {v : α} (h : alookup m k = some v) : (k, v) ∈ m := by
  unfold alookup at h
  cases hf : m.find? fun p => p.1 == k with
  | none => simp [hf] at h
  | some p =>
    simp only [hf, Option.map_some', Option.some.injEq] at h
    have hm := List.mem_of_find?_eq_some hf
    have hp : p.1 = k := by simpa using List.find?_some hf
    obtain ⟨p1, p2⟩ := p
    cases hp
    cases h
    exact hm

/-- C2 -- For every global store, the tracking analysis surfaces exactly one
entry per record under the daily-statistics key whose JSON parse succeeds
(parse failures are skipped, not escalated), and each entry carries an
acceptance rate for a category exactly when that category's suggested count
is strictly positive (the rate is the ratio `accepted/suggested`, scaled to
percent). -/
theorem tracking_surfaces_each_parsed_record
    (parseTrack : String → Option TrackStats) (gd : List (String × String)) :
    (analyze_global_tracking parseTrack gd).length
        = (gd.filter fun kv => trackKeyMatches kv.1 && (parseTrack kv.2).isSome).length
      ∧ ∀ r ∈ analyze_global_tracking parseTrack gd,
          (r.tabRate.isSome ↔ 0 < r.tabSuggested)
        ∧ (0 < r.tabSuggested →
            r.tabRate = some ((r.tabAccepted : ℚ) / (r.tabSuggested : ℚ) * 100))
        ∧ (r.composerRate.isSome ↔ 0 < r.composerSuggested)
        ∧ (0 < r.composerSuggested →
            r.composerRate
              = some ((r.composerAccepted : ℚ) / (r.composerSuggested : ℚ) * 100)) := by
  constructor
  · unfold analyze_global_tracking
    rw [List.length_map, length_pySorted]
    apply length_filterMap_eq_count
    intro kv
    by_cases h : trackKeyMatches kv.1 <;> simp [h]
  · intro r hr
    unfold analyze_global_tracking at hr
    rw [List.mem_map] at hr
    obtain ⟨kv, _, rfl⟩ := hr
    unfold renderTrack
    refine ⟨?_, ?_, ?_, ?_⟩ <;>
      by_cases h : 0 < kv.2.tabSuggestedLines <;>
        by_cases h2 : 0 < kv.2.composerSuggestedLines <;> simp [h, h2]

/-- C2 witness: on the concrete store `wTrackGd`, exactly the two parsable
tracking records are surfaced, and the rendered record of the first day has
a tab rate (its denominator is 10 > 0). -/
theorem tracking_surfaces_each_parsed_record_witness :
    (analyze_global_tracking wTrackParse wTrackGd).length
        = (wTrackGd.filter fun kv => trackKeyMatches kv.1 && (wTrackParse kv.2).isSome).length
      ∧ ((renderTrack "aiCodeTracking.dailyStats.2025-06-01"
            { tabSuggestedLines := 10, tabAcceptedLines := 5,
              composerSuggestedLines := 7, composerAcceptedLines := 0 }).tabRate.isSome
          ↔ 0 < (renderTrack "aiCodeTracking.dailyStats.2025-06-01"
                  { tabSuggestedLines := 10, tabAcceptedLines := 5,
                    composerSuggestedLines := 7, composerAcceptedLines := 0 }).tabSuggested) :=
  ⟨(tracking_surfaces_each_parsed_record wTrackParse wTrackGd).1,
   ((tracking_surfaces_each_parsed_record wTrackParse wTrackGd).2
      (renderTrack "aiCodeTracking.dailyStats.2025-06-01"
        { tabSuggestedLines := 10, tabAcceptedLines := 5,
          composerSuggestedLines := 7, composerAcceptedLines := 0 })
      (by
        have hl : analyze_global_tracking wTrackParse wTrackGd
            = [renderTrack "aiCodeTracking.dailyStats.2025-06-01"
                 { tabSuggestedLines := 10, tabAcceptedLines := 5,
                   composerSuggestedLines := 7, composerAcceptedLines := 0 },
               renderTrack "aiCodeTracking.dailyStats.2025-06-02"
                 { tabSuggestedLines := 0, tabAcceptedLines := 0,
                   composerSuggestedLines := 3, composerAcceptedLines := 3 }] := rfl
        rw [hl]
        exact List.mem_cons_self _ _)).1⟩

/-- Discovery succeeds when every present `workspace.json` parses, and then
yields one descriptor per directory that has the file, in order. -/
theorem discover_ok_of_parses (parseWs : String → Option WsDesc)
    (dirs : List WsDir)
    (h : ∀ d ∈ dirs, ∀ c, d.wsJson = some c → (parseWs c).isSome) :
    ∃ l, discover_workspaces parseWs dirs = Except.ok l
      ∧ l.length = (dirs.filter fun d => d.wsJson.isSome).length
      ∧ l.map (fun w => w.workspace_id)
          = (dirs.filter fun d => d.wsJson.isSome).map WsDir.name := by
  induction dirs with
  | nil => exact ⟨[], rfl, rfl, rfl⟩
  | cons d ds ih =>
    obtain ⟨l, hok, hlen, hids⟩ := ih fun d2 hd2 => h d2 (List.mem_cons_of_mem d hd2)
    cases hj : d.wsJson with
    | none =>
      refine ⟨l, ?_, ?_, ?_⟩ <;>
        simp [discover_workspaces, hj, hok, hlen, hids, List.filter_cons]
    | some c =>
      obtain ⟨wsd, hw⟩ := Option.isSome_iff_exists.mp (h d (List.mem_cons_self d ds) c hj)
      refine ⟨{ workspace_id := d.name, folder_uri := wsd.folder,
                folder_path := unquote (strReplace wsd.folder "file:///" ""),
                project_name := pathName (unquote (strReplace wsd.folder "file:///" "")),
                db_exists := d.db.isSome, db := d.db } :: l, ?_, ?_, ?_⟩
      · simp [discover_workspaces, hj, hw, hok]
      · simp [List.filter_cons, hj, hlen]
      · simp [List.filter_cons, hj, hids]

/-- C3 -- For every workspace-storage directory whose subdirectories either
have no `workspace.json` or have one that parses, discovery yields exactly
one descriptor per subdirectory that has the file; subdirectories without
it are skipped without error. -/
theorem discovery_yields_exactly_descriptored
    (parseWs : String → Option WsDesc) (dirs : List WsDir)
    (h : ∀ d ∈ dirs, ∀ c, d.wsJson = some c → (parseWs c).isSome) :
    ∃ l, discover_workspaces parseWs dirs = Except.ok l
      ∧ l.length = (dirs.filter fun d => d.wsJson.isSome).length := by
  obtain ⟨l, h1, h2, _⟩ := discover_ok_of_parses parseWs dirs h
  exact ⟨l, h1, h2⟩

/-- C3 witness: of the three concrete directories in `wDirs`, exactly the
two holding a `workspace.json` yield descriptors. -/
theorem discovery_yields_exactly_descriptored_witness :
    (wDirs.filter fun d => d.wsJson.isSome).length = 2
      ∧ ∃ l, discover_workspaces wParseWs wDirs = Except.ok l
          ∧ l.length = (wDirs.filter fun d => d.wsJson.isSome).length := by
  refine ⟨by decide, discovery_yields_exactly_descriptored wParseWs wDirs ?_⟩
  intro d hd c hc
  simp only [wDirs, List.mem_cons, List.not_mem_nil, or_false] at hd
  rcases hd with rfl | rfl | rfl <;> simp_all [wParseWs]

theorem alookup_cons_self {α : Type} (k : String) (v : α)
    (m : List (String × α)) : alookup ((k, v) :: m) k = some v := by
  simp [alookup, List.find?_cons]

theorem alookup_cons_ne {α : Type} {p : String × α} {m : List (String × α)}
    {k : String} (h : p.1 ≠ k) : alookup (p :: m) k = alookup m k := by
  simp [alookup, List.find?_cons, h]

/-- C4 -- A record whose nonempty byte value fails text decoding appears in
the global mapping as the sized `<BLOB: n bytes>` placeholder built from its
byte length (never the raw bytes); a record whose value decodes appears as
the decoded text.  `load_global_data` is a total function, so no exception
escapes the load in either case. -/
theorem blob_placeholder_on_decode_failure (decodeUtf8 : Bytes → Option String)
    (rows : List DbRow) (k : String) (bs : Bytes)
    (hnd : (rows.map Prod.fst).Nodup) (hmem : (k, some bs) ∈ rows)
    (hne : bs ≠ []) :
    alookup (load_global_data decodeUtf8 rows) k
      = some (match decodeUtf8 bs with
              | some s => s
              | none => "<BLOB: " ++ Nat.repr bs.length ++ " bytes>") := by
  induction rows with
  | nil => simp at hmem
  | cons r rows ih =>
    obtain ⟨k0, v0⟩ := r
    simp only [List.map_cons, List.nodup_cons] at hnd
    by_cases hk : k0 = k
    · subst hk
      have hv : v0 = some bs := by
        rcases List.mem_cons.mp hmem with heq | hmem2
        · exact (((Prod.mk.injEq _ _ _ _).mp heq.symm).2)
        · exact absurd (List.mem_map.mpr ⟨(k0, some bs), hmem2, rfl⟩) hnd.1
      subst hv
      have hbe : bs.isEmpty = false := by
        cases bs
        · simp at hne
        · rfl
      cases hd : decodeUtf8 bs with
      | some s =>
        have hload : load_global_data decodeUtf8 ((k0, some bs) :: rows)
            = (k0, s) :: load_global_data decodeUtf8 rows := by
          simp [load_global_data, List.filterMap_cons, hbe, hne, hd]
        rw [hload, alookup_cons_self]
      | none =>
        have hload : load_global_data decodeUtf8 ((k0, some bs) :: rows)
            = (k0, "<BLOB: " ++ Nat.repr bs.length ++ " bytes>")
                :: load_global_data decodeUtf8 rows := by
          simp [load_global_data, List.filterMap_cons, hbe, hne, hd]
        rw [hload, alookup_cons_self]
    · have hmem2 : (k, some bs) ∈ rows := by
        rcases List.mem_cons.mp hmem with heq | h2
        · exact absurd (((Prod.mk.injEq _ _ _ _).mp heq).1.symm) hk
        · exact h2
      have htail := ih hnd.2 hmem2
      rcases hv0 : v0 with - | bs0
      · have hload : load_global_data decodeUtf8 ((k0, none) :: rows)
            = load_global_data decodeUtf8 rows := by
          simp [load_global_data, List.filterMap_cons]
        rw [hload, htail]
      · by_cases hbe : bs0 = []
        · have hload : load_global_data decodeUtf8 ((k0, some bs0) :: rows)
              = load_global_data decodeUtf8 rows := by
            simp [load_global_data, List.filterMap_cons, hbe]
          rw [hload, htail]
        · cases hd : decodeUtf8 bs0 with
          | some s =>
            have hload : load_global_data decodeUtf8 ((k0, some bs0) :: rows)
                = (k0, s) :: load_global_data decodeUtf8 rows := by
              simp [load_global_data, List.filterMap_cons, hbe, hd]
            rw [hload, alookup_cons_ne hk, htail]
          | none =>
            have hload : load_global_data decodeUtf8 ((k0, some bs0) :: rows)
                = (k0, "<BLOB: " ++ Nat.repr bs0.length ++ " bytes>")
                    :: load_global_data decodeUtf8 rows := by
              simp [load_global_data, List.filterMap_cons, hbe, hd]
            rw [hload, alookup_cons_ne hk, htail]

/-- C4 witness: in the concrete store `wRows`, the undecodable one-byte
record under key `"blob"` is loaded as the placeholder `<BLOB: 1 bytes>`. -/
theorem blob_placeholder_on_decode_failure_witness :
    alookup (load_global_data wDecode wRows) "blob" = some "<BLOB: 1 bytes>" :=
  blob_placeholder_on_decode_failure wDecode wRows "blob" [200]
    (by decide) (by decide) (by decide)

/-- C9 -- After loading the global store (with pairwise distinct record
keys, as in SQLite), every entry of the in-memory global mapping comes from
a record with a nonempty byte value and holds either its decoded text or
its byte-length placeholder; a record whose value is NULL or empty produces
no entry at all. -/
theorem global_mapping_invariant (decodeUtf8 : Bytes → Option String)
    (rows : List DbRow) (hnd : (rows.map Prod.fst).Nodup) :
    (∀ k v, (k, v) ∈ load_global_data decodeUtf8 rows →
        ∃ bs, (k, some bs) ∈ rows ∧ bs ≠ []
          ∧ ((∃ s, decodeUtf8 bs = some s ∧ v = s)
             ∨ (decodeUtf8 bs = none
                ∧ v = "<BLOB: " ++ Nat.repr bs.length ++ " bytes>")))
  ∧ (∀ k, ((k, (none : Option Bytes)) ∈ rows ∨ (k, some ([] : Bytes)) ∈ rows) →
        alookup (load_global_data decodeUtf8 rows) k = none) := by
  have h1 : ∀ k v, (k, v) ∈ load_global_data decodeUtf8 rows →
      ∃ bs, (k, some bs) ∈ rows ∧ bs ≠ []
        ∧ ((∃ s, decodeUtf8 bs = some s ∧ v = s)
           ∨ (decodeUtf8 bs = none
              ∧ v = "<BLOB: " ++ Nat.repr bs.length ++ " bytes>")) := by
    intro k v hkv
    rw [load_global_data, List.mem_filterMap] at hkv
    obtain ⟨⟨k0, v0⟩, hmem, hf⟩ := hkv
    rcases v0 with - | bs
    · simp at hf
    · by_cases hbe : bs.isEmpty
      · simp [hbe] at hf
      · have hne : bs ≠ [] := by
          intro h
          subst h
          simp at hbe
        cases hd : decodeUtf8 bs with
        | some s =>
          simp only [hbe, hd, if_false, Bool.false_eq_true] at hf
          obtain ⟨rfl, rfl⟩ := (Prod.mk.injEq _ _ _ _).mp (Option.some.inj hf)
          exact ⟨bs, hmem, hne, Or.inl ⟨s, hd, rfl⟩⟩
        | none =>
          simp only [hbe, hd, if_false, Bool.false_eq_true] at hf
          obtain ⟨rfl, rfl⟩ := (Prod.mk.injEq _ _ _ _).mp (Option.some.inj hf)
          exact ⟨bs, hmem, hne, Or.inr ⟨hd, rfl⟩⟩
  refine ⟨h1, ?_⟩
  intro k hk
  cases hl : alookup (load_global_data decodeUtf8 rows) k with
  | none => rfl
  | some v =>
    obtain ⟨bs, hmem, hne, -⟩ := h1 k v (alookup_eq_some_mem hl)
    rcases hk with hk | hk
    · exact absurd (nodup_keys_val_eq hnd hmem hk) (by simp)
    · have := Option.some.inj (nodup_keys_val_eq hnd hmem hk)
      exact absurd this hne

/-- C9 witness: in the concrete store `wRows`, the loaded entry under
`"blob"` traces back to a nonempty undecodable record, while the NULL-valued
record `"nul"` and the empty-valued record `"emp"` produce no entry. -/
theorem global_mapping_invariant_witness :
    (∃ bs, ("blob", some bs) ∈ wRows ∧ bs ≠ []
       ∧ ((∃ s, wDecode bs = some s ∧ "<BLOB: 1 bytes>" = s)
          ∨ (wDecode bs = none
             ∧ "<BLOB: 1 bytes>" = "<BLOB: " ++ Nat.repr bs.length ++ " bytes>")))
      ∧ alookup (load_global_data wDecode wRows) "nul" = none
      ∧ alookup (load_global_data wDecode wRows) "emp" = none :=
  ⟨(global_mapping_invariant wDecode wRows (by decide)).1 "blob" "<BLOB: 1 bytes>"
      (by decide),
   (global_mapping_invariant wDecode wRows (by decide)).2 "nul" (Or.inl (by decide)),
   (global_mapping_invariant wDecode wRows (by decide)).2 "emp" (Or.inr (by decide))⟩

theorem statsStep_total_records (s : Stats) (r : DbRow) :
    (statsStep s r).total_records = s.total_records + 1 := by
  unfold statsStep
  dsimp only
  split_ifs <;> rfl

theorem statsStep_total_sizes (s : Stats) (r : DbRow) :
    (statsStep s r).total_sizes
      = if bytesTruthy r.2 then dictInsert s.total_sizes r.1 (bytesLen r.2)
        else s.total_sizes := by
  unfold statsStep
  dsimp only
  split_ifs <;> rfl

theorem statsStep_prompts (s : Stats) (r : DbRow) :
    (statsStep s r).ai_service_prompts
      = if r.1 == "aiService.prompts" then
          (if bytesTruthy r.2 then bytesLen r.2 else 0)
        else s.ai_service_prompts := by
  unfold statsStep
  dsimp only
  split_ifs <;> rfl

theorem statsStep_generations (s : Stats) (r : DbRow) :
    (statsStep s r).ai_service_generations
      = if r.1 == "aiService.generations" then
          (if bytesTruthy r.2 then bytesLen r.2 else 0)
        else s.ai_service_generations := by
  unfold statsStep
  dsimp only
  split_ifs with h1 h2 <;> simp_all [statsStep] <;> rfl

theorem statsStep_composer (s : Stats) (r : DbRow) :
    (statsStep s r).composer_data
      = if r.1 == "composer.composerData" then
          (if bytesTruthy r.2 then bytesLen r.2 else 0)
        else s.composer_data := by
  unfold statsStep
  dsimp only
  split_ifs with h1 h2 <;> simp_all [statsStep] <;> rfl

theorem mem_dictInsert {α : Type} (m : List (String × α)) (k0 : String)
    (v0 : α) (k : String) (v : α) (h : (k, v) ∈ dictInsert m k0 v0) :
    (k, v) ∈ m ∨ (k = k0 ∧ v = v0) := by
  induction m with
  | nil =>
    simp [dictInsert] at h
    exact Or.inr h
  | cons p m ih =>
    obtain ⟨k1, v1⟩ := p
    unfold dictInsert at h
    by_cases hk : k1 == k0
    · rw [if_pos hk] at h
      rcases List.mem_cons.mp h with heq | h2
      · exact Or.inr ((Prod.mk.injEq _ _ _ _).mp heq)
      · exact Or.inl (List.mem_cons_of_mem _ h2)
    · rw [if_neg hk] at h
      rcases List.mem_cons.mp h with heq | h2
      · exact Or.inl (heq ▸ List.mem_cons_self _ _)
      · rcases ih h2 with h3 | h3
        · exact Or.inl (List.mem_cons_of_mem _ h3)
        · exact Or.inr h3

theorem length_dictInsert {α : Type} (m : List (String × α)) (k : String)
    (v : α) : (dictInsert m k v).length ≤ m.length + 1 := by
  induction m with
  | nil => simp [dictInsert]
  | cons p m ih =>
    obtain ⟨k1, v1⟩ := p
    unfold dictInsert
    split
    · simp
    · simpa using Nat.succ_le_succ ih

theorem foldl_statsStep_records (rows : List DbRow) (s : Stats) :
    (rows.foldl statsStep s).total_records = s.total_records + rows.length := by
  induction rows generalizing s with
  | nil => rfl
  | cons r rows ih =>
    simp only [List.foldl_cons, ih, statsStep_total_records, List.length_cons]
    omega

theorem foldl_statsStep_sizes_length (rows : List DbRow) (s : Stats) :
    (rows.foldl statsStep s).total_sizes.length
      ≤ s.total_sizes.length + rows.length := by
  induction rows generalizing s with
  | nil => simp
  | cons r rows ih =>
    refine le_trans (ih (statsStep s r)) ?_
    have h := statsStep_total_sizes s r
    by_cases ht : bytesTruthy r.2
    · rw [ht, if_pos rfl] at h
      have := length_dictInsert s.total_sizes r.1 (bytesLen r.2)
      simp only [h, List.length_cons]
      omega
    · rw [if_neg ht] at h
      simp only [h, List.length_cons]
      omega

theorem foldl_statsStep_sizes_mem (P : String → Nat → Prop) :
    ∀ (rows : List DbRow) (s : Stats),
      (∀ k n, (k, n) ∈ s.total_sizes → P k n) →
      (∀ r ∈ rows, bytesTruthy r.2 = true → P r.1 (bytesLen r.2)) →
      ∀ k n, (k, n) ∈ (rows.foldl statsStep s).total_sizes → P k n := by
  intro rows
  induction rows with
  | nil => intro s hs _ k n h; exact hs k n h
  | cons r rows ih =>
    intro s hs hrows k n h
    refine ih (statsStep s r) ?_ (fun r2 h2 => hrows r2 (List.mem_cons_of_mem _ h2)) k n h
    intro k2 n2 h2
    have hst := statsStep_total_sizes s r
    by_cases ht : bytesTruthy r.2
    · rw [ht, if_pos rfl] at hst
      rw [hst] at h2
      rcases mem_dictInsert _ _ _ _ _ h2 with h3 | ⟨rfl, rfl⟩
      · exact hs k2 n2 h3
      · exact hrows r (List.mem_cons_self _ _) ht
    · rw [if_neg ht] at hst
      rw [hst] at h2
      exact hs k2 n2 h2

theorem foldl_prompts_preserve (rows : List DbRow) (s : Stats)
    (h : ∀ v, ("aiService.prompts", v) ∉ rows) :
    (rows.foldl statsStep s).ai_service_prompts = s.ai_service_prompts := by
  induction rows generalizing s with
  | nil => rfl
  | cons r rows ih =>
    have hr : r.1 ≠ "aiService.prompts" := by
      intro he
      have hre : ("aiService.prompts", r.2) = r := by rw [← he]
      exact h r.2 (hre ▸ List.mem_cons_self r rows)
    simp only [List.foldl_cons]
    rw [ih _ fun v hv => h v (List.mem_cons_of_mem _ hv), statsStep_prompts]
    simp [hr]

theorem foldl_generations_preserve (rows : List DbRow) (s : Stats)
    (h : ∀ v, ("aiService.generations", v) ∉ rows) :
    (rows.foldl statsStep s).ai_service_generations
      = s.ai_service_generations := by
  induction rows generalizing s with
  | nil => rfl
  | cons r rows ih =>
    have hr : r.1 ≠ "aiService.generations" := by
      intro he
      have hre : ("aiService.generations", r.2) = r := by rw [← he]
      exact h r.2 (hre ▸ List.mem_cons_self r rows)
    simp only [List.foldl_cons]
    rw [ih _ fun v hv => h v (List.mem_cons_of_mem _ hv), statsStep_generations]
    simp [hr]

theorem foldl_composer_preserve (rows : List DbRow) (s : Stats)
    (h : ∀ v, ("composer.composerData", v) ∉ rows) :
    (rows.foldl statsStep s).composer_data = s.composer_data := by
  induction rows generalizing s with
  | nil => rfl
  | cons r rows ih =>
    have hr : r.1 ≠ "composer.composerData" := by
      intro he
      have hre : ("composer.composerData", r.2) = r := by rw [← he]
      exact h r.2 (hre ▸ List.mem_cons_self r rows)
    simp only [List.foldl_cons]
    rw [ih _ fun v hv => h v (List.mem_cons_of_mem _ hv), statsStep_composer]
    simp [hr]

theorem notail_of_nodup_append (key : String) (v : Option Bytes)
    (l1 l2 : List DbRow)
    (hnd : ((l1 ++ (key, v) :: l2).map Prod.fst).Nodup) :
    ∀ w, (key, w) ∉ l2 := by
  intro w hw
  have hmem : key ∈ l2.map Prod.fst := List.mem_map.mpr ⟨_, hw, rfl⟩
  rw [List.map_append, List.map_cons] at hnd
  have h2 := List.Nodup.of_append_right hnd
  rw [List.nodup_cons] at h2
  exact h2.1 hmem

/-- C10 -- Scanning a workspace store (with pairwise distinct record keys,
as in SQLite) counts every record in `total_records`, enters only records
with a non-NULL, nonempty value into the per-key size mapping (so the
mapping can be shorter than `total_records`), and reports 0 for each of the
three well-known keys whose value is NULL or empty. -/
theorem workspace_stats_counting (rows : List DbRow)
    (hnd : (rows.map Prod.fst).Nodup) :
    (computeStats rows).total_records = rows.length
  ∧ (∀ k n, (k, n) ∈ (computeStats rows).total_sizes →
       ∃ v, (k, v) ∈ rows ∧ bytesTruthy v = true ∧ n = bytesLen v)
  ∧ (computeStats rows).total_sizes.length ≤ rows.length
  ∧ (∀ v, ("aiService.prompts", v) ∈ rows → bytesTruthy v = false →
       (computeStats rows).ai_service_prompts = 0)
  ∧ (∀ v, ("aiService.generations", v) ∈ rows → bytesTruthy v = false →
       (computeStats rows).ai_service_generations = 0)
  ∧ (∀ v, ("composer.composerData", v) ∈ rows → bytesTruthy v = false →
       (computeStats rows).composer_data = 0) := by
  refine ⟨?_, ?_, ?_, ?_, ?_, ?_⟩
  · rw [computeStats, foldl_statsStep_records]
    simp [initStats]
  · intro k n h
    refine foldl_statsStep_sizes_mem
      (fun k n => ∃ v, (k, v) ∈ rows ∧ bytesTruthy v = true ∧ n = bytesLen v)
      rows initStats ?_ ?_ k n h
    · intro k2 n2 h2
      simp [initStats] at h2
    · intro r hr ht
      exact ⟨r.2, by simpa using hr, ht, rfl⟩
  · have := foldl_statsStep_sizes_length rows initStats
    simpa [computeStats, initStats] using this
  · intro v hmem hv
    obtain ⟨l1, l2, rfl⟩ := List.append_of_mem hmem
    have hno := notail_of_nodup_append _ _ _ _ hnd
    rw [computeStats, List.foldl_append, List.foldl_cons,
        foldl_prompts_preserve l2 _ hno, statsStep_prompts]
    simp [hv]
  · intro v hmem hv
    obtain ⟨l1, l2, rfl⟩ := List.append_of_mem hmem
    have hno := notail_of_nodup_append _ _ _ _ hnd
    rw [computeStats, List.foldl_append, List.foldl_cons,
        foldl_generations_preserve l2 _ hno, statsStep_generations]
    simp [hv]
  · intro v hmem hv
    obtain ⟨l1, l2, rfl⟩ := List.append_of_mem hmem
    have hno := notail_of_nodup_append _ _ _ _ hnd
    rw [computeStats, List.foldl_append, List.foldl_cons,
        foldl_composer_preserve l2 _ hno, statsStep_composer]
    simp [hv]

/-- C10 witness: on the concrete store `wStatsRows` (three well-known keys
with NULL or empty values plus one ordinary record), all four records are
counted, the size mapping has a single entry, and all three well-known
statistics are 0. -/
theorem workspace_stats_counting_witness :
    (computeStats wStatsRows).total_records = wStatsRows.length
  ∧ (computeStats wStatsRows).total_sizes.length ≤ wStatsRows.length
  ∧ (computeStats wStatsRows).ai_service_prompts = 0
  ∧ (computeStats wStatsRows).ai_service_generations = 0
  ∧ (computeStats wStatsRows).composer_data = 0
  ∧ (computeStats wStatsRows).total_sizes.length = 1 := by
  have h := workspace_stats_counting wStatsRows (by decide)
  exact ⟨h.1, h.2.2.1,
    h.2.2.2.1 (some []) (by decide) (by decide),
    h.2.2.2.2.1 none (by decide) (by decide),
    h.2.2.2.2.2 (some []) (by decide) (by decide),
    by decide⟩

/-- C7 -- Analyzing a discovered workspace whose existing store holds
exactly a 37-byte `aiService.prompts` record and a 12-byte
`composer.composerData` record yields `total_records = 2`,
`ai_service_prompts = 37`, `composer_data = 12` and
`ai_service_generations = 0`. -/
theorem scenario_two_record_store (wss : List WorkspaceInfo) (wsid : String)
    (w : WorkspaceInfo) (b1 b2 : Bytes)
    (hf : (wss.find? fun x => x.workspace_id == wsid) = some w)
    (hex : w.db_exists = true)
    (hdb : w.db = some [("aiService.prompts", some b1),
                        ("composer.composerData", some b2)])
    (h1 : b1.length = 37) (h2 : b2.length = 12) :
    analyze_workspace_db wss wsid
      = some { total_records := 2
               ai_service_prompts := 37
               ai_service_generations := 0
               composer_data := 12
               total_sizes := [("aiService.prompts", 37),
                               ("composer.composerData", 12)] } := by
  have hne1 : b1 ≠ [] := by
    intro h
    rw [h] at h1
    simp at h1
  have hne2 : b2 ≠ [] := by
    intro h
    rw [h] at h2
    simp at h2
  unfold analyze_workspace_db
  rw [hf]
  simp only [hex, if_true, hdb, Option.map_some']
  simp [computeStats, statsStep, initStats, dictInsert, bytesTruthy, bytesLen,
        hne1, hne2, h1, h2]

/-- C7 witness: the concrete one-workspace state `wScenarioWss` produces
exactly the statistics of the end-to-end scenario. -/
theorem scenario_two_record_store_witness :
    analyze_workspace_db wScenarioWss "ws1"
      = some { total_records := 2
               ai_service_prompts := 37
               ai_service_generations := 0
               composer_data := 12
               total_sizes := [("aiService.prompts", 37),
                               ("composer.composerData", 12)] } :=
  scenario_two_record_store wScenarioWss "ws1"
    { workspace_id := "ws1", folder_uri := "file:///home/u/proj",
      folder_path := "home/u/proj", project_name := "proj",
      db_exists := true,
      db := some [("aiService.prompts", some (List.replicate 37 65)),
                  ("composer.composerData", some (List.replicate 12 66))] }
    (List.replicate 37 65) (List.replicate 12 66)
    rfl rfl rfl (by decide) (by decide)

/-- C6 -- When the recently-opened record is present and parses to `P`
entries and the limit `L` is below `P`, the step renders exactly the first
`L` entries in list order, and any rendered entry carries a workspace
identifier exactly when some discovered workspace's folder reference equals
the entry's folder reference as a string (and the reported identifier
belongs to such a workspace). -/
theorem recent_renders_first_limit
    (parseRecent : String → Option (List RecentEntry))
    (wss : List WorkspaceInfo) (gd : List (String × String)) (limit : Nat)
    (v : String) (entries : List RecentEntry)
    (hv : alookup gd "history.recentlyOpenedPathsList" = some v)
    (hp : parseRecent v = some entries)
    (hl : limit < entries.length) :
    get_recent_projects parseRecent wss gd limit
        = RecentOut.shown (((entries.take limit).enum).map (renderRecent wss))
      ∧ ((entries.take limit).enum.map (renderRecent wss)).length = limit
      ∧ ∀ ie : Nat × RecentEntry,
          ((renderRecent wss ie).wsMatch.isSome
              ↔ ∃ w ∈ wss, w.folder_uri = ie.2.folderUri)
        ∧ ∀ i, (renderRecent wss ie).wsMatch = some i →
            ∃ w ∈ wss, w.workspace_id = i ∧ w.folder_uri = ie.2.folderUri := by
  refine ⟨?_, ?_, ?_⟩
  · unfold get_recent_projects
    simp only [hv, hp]
  · rw [List.length_map, List.enum_length, List.length_take]
    omega
  · intro ie
    constructor
    · simp only [renderRecent, Option.isSome_map']
      rw [List.find?_isSome]
      constructor
      · rintro ⟨w, hw, hpw⟩
        exact ⟨w, hw, by simpa using hpw⟩
      · rintro ⟨w, hw, he⟩
        exact ⟨w, hw, by simp [he]⟩
    · intro i hi
      simp only [renderRecent] at hi
      rw [Option.map_eq_some'] at hi
      obtain ⟨w, hfw, rfl⟩ := hi
      exact ⟨w, List.mem_of_find?_eq_some hfw, rfl,
             by simpa using List.find?_some hfw⟩

/-- C6 witness: with the concrete three-entry record `wRecEntries` and limit
2, exactly the first two entries are rendered, and the first entry matches
the discovered workspace whose folder reference is the same string. -/
theorem recent_renders_first_limit_witness :
    (get_recent_projects wRecParse wMapWss wRecGd 2
        = RecentOut.shown (((wRecEntries.take 2).enum).map (renderRecent wMapWss)))
      ∧ ((wRecEntries.take 2).enum.map (renderRecent wMapWss)).length = 2
      ∧ ((renderRecent wMapWss (0, { folderUri := "file:///a/proj" })).wsMatch.isSome
          ↔ ∃ w ∈ wMapWss,
              w.folder_uri = (0, RecentEntry.mk "file:///a/proj").2.folderUri) := by
  have h := recent_renders_first_limit wRecParse wMapWss wRecGd 2 "r" wRecEntries
    rfl rfl (by decide)
  exact ⟨h.1, h.2.1, (h.2.2 (0, { folderUri := "file:///a/proj" })).1⟩

theorem toDigitsCore_eq_natChars :
    ∀ (fuel n : Nat), n < fuel → ∀ ds : List Char,
      Nat.toDigitsCore 10 fuel n ds = natChars n ++ ds := by
  intro fuel
  induction fuel with
  | zero => omega
  | succ f ih =>
    intro n h ds
    simp only [Nat.toDigitsCore]
    by_cases h0 : n / 10 = 0
    · have hn : n < 10 := by omega
      rw [if_pos h0, natChars.eq_def n, if_pos hn, Nat.mod_eq_of_lt hn]
      rfl
    · have hn : ¬ n < 10 := by omega
      have hlt : n / 10 < f := by omega
      rw [if_neg h0, ih (n / 10) hlt, natChars.eq_def n, if_neg hn,
          List.append_assoc]
      rfl

theorem repr_data_eq_natChars (n : Nat) : (Nat.repr n).data = natChars n := by
  show (Nat.repr n).data = natChars n
  unfold Nat.repr Nat.toDigits
  rw [toDigitsCore_eq_natChars (n + 1) n (Nat.lt_succ_self n) []]
  simp [List.asString]

theorem natChars_ne_nil (n : Nat) : natChars n ≠ [] := by
  rw [natChars.eq_def]
  split <;> simp

theorem digitChar_inj_lt (a b : Nat) (ha : a < 10) (hb : b < 10)
    (h : Nat.digitChar a = Nat.digitChar b) : a = b := by
  have hfin : ∀ x y : Fin 10, Nat.digitChar x.val = Nat.digitChar y.val → x = y := by
    decide
  have := hfin ⟨a, ha⟩ ⟨b, hb⟩ h
  simpa using congrArg Fin.val this

theorem natChars_inj : ∀ m n : Nat, natChars m = natChars n → m = n := by
  intro m
  induction m using Nat.strong_induction_on with
  | _ m ih =>
    intro n h
    by_cases hm : m < 10 <;> by_cases hn : n < 10
    · rw [natChars.eq_def m, if_pos hm] at h
      rw [natChars.eq_def n, if_pos hn] at h
      exact digitChar_inj_lt m n hm hn (List.singleton_inj.mp h)
    · rw [natChars.eq_def m, if_pos hm] at h
      rw [natChars.eq_def n, if_neg hn] at h
      have hlen := congrArg List.length h
      simp only [List.length_singleton, List.length_append] at hlen
      have : natChars (n / 10) = [] := by
        apply List.length_eq_zero.mp
        omega
      exact absurd this (natChars_ne_nil _)
    · rw [natChars.eq_def m, if_neg hm] at h
      rw [natChars.eq_def n, if_pos hn] at h
      have hlen := congrArg List.length h
      simp only [List.length_singleton, List.length_append] at hlen
      have : natChars (m / 10) = [] := by
        apply List.length_eq_zero.mp
        omega
      exact absurd this (natChars_ne_nil _)
    · rw [natChars.eq_def m, if_neg hm] at h
      rw [natChars.eq_def n, if_neg hn] at h
      obtain ⟨h1, h2⟩ := List.append_inj' h (by simp)
      have hdiv : m / 10 = n / 10 :=
        ih (m / 10) (Nat.div_lt_self (by omega) (by omega)) (n / 10) h1
      have hmod : m % 10 = n % 10 :=
        digitChar_inj_lt _ _ (Nat.mod_lt _ (by omega)) (Nat.mod_lt _ (by omega))
          (List.singleton_inj.mp h2)
      omega

theorem nat_repr_inj {m n : Nat} (h : Nat.repr m = Nat.repr n) : m = n := by
  apply natChars_inj
  rw [← repr_data_eq_natChars, ← repr_data_eq_natChars, h]

theorem enum_map_fst_apply {α β : Type} (f : Nat → β) (l : List α) :
    l.enum.map (fun iw => f iw.1) = (List.range l.length).map f := by
  have h : (fun iw : Nat × α => f iw.1) = f ∘ Prod.fst := rfl
  rw [h, ← List.map_map, List.enum_map_fst]

theorem renderGroup_displays (wss : List WorkspaceInfo) (n : String)
    (ids : List String) (h : 1 < ids.length) :
    ((renderGroup wss n ids).map fun e => e.display_name)
      = (List.range ids.length).map fun i => n ++ "-" ++ Nat.repr (i + 1) := by
  unfold renderGroup
  rw [List.map_map]
  rw [List.map_congr_left
    (g := fun iw : Nat × String => n ++ "-" ++ Nat.repr (iw.1 + 1))
    (fun iw _ => by simp [h])]
  exact enum_map_fst_apply (fun i => n ++ "-" ++ Nat.repr (i + 1)) ids

theorem displays_nodup (n : String) (k : Nat) :
    (((List.range k).map fun i => n ++ "-" ++ Nat.repr (i + 1))).Nodup := by
  refine List.Nodup.map ?_ (List.nodup_range k)
  intro i j hij
  have hdata := congrArg String.data hij
  rw [String.data_append, String.data_append, String.data_append,
      String.data_append] at hdata
  have h1 := List.append_cancel_left hdata
  rw [repr_data_eq_natChars, repr_data_eq_natChars] at h1
  have := natChars_inj _ _ h1
  omega

/-- C5 -- In the generated project mapping, a display name shared by two or
more workspaces is flagged in the human-readable mapping section, and the
suggested configuration emits those workspaces under pairwise distinct
display names suffixed with a 1-based index (`name-1`, `name-2`, ...); a
workspace whose display name is unique keeps the unsuffixed name. -/
theorem mapping_collision_suffixes (wss : List WorkspaceInfo)
    (p : String × List String) (hp : p ∈ sortedProjects wss) :
    (1 < p.2.length →
        (p.1, p.2, true) ∈ mapping_lines wss
      ∧ ((renderGroup wss p.1 p.2).map fun e => e.display_name)
          = ((List.range p.2.length).map fun i => p.1 ++ "-" ++ Nat.repr (i + 1))
      ∧ (((renderGroup wss p.1 p.2).map fun e => e.display_name)).Nodup
      ∧ ∀ e ∈ renderGroup wss p.1 p.2, e ∈ suggested_config wss)
  ∧ (p.2.length = 1 →
        (p.1, p.2, false) ∈ mapping_lines wss
      ∧ ((renderGroup wss p.1 p.2).map fun e => e.display_name) = [p.1]) := by
  constructor
  · intro h
    refine ⟨?_, renderGroup_displays wss p.1 p.2 h, ?_, ?_⟩
    · unfold mapping_lines
      exact List.mem_map.mpr ⟨p, hp, by simp [h]⟩
    · rw [renderGroup_displays wss p.1 p.2 h]
      exact displays_nodup p.1 p.2.length
    · intro e he
      unfold suggested_config
      exact List.mem_flatMap.mpr ⟨p, hp, he⟩
  · intro h
    obtain ⟨a, ha⟩ := List.length_eq_one.mp h
    constructor
    · unfold mapping_lines
      refine List.mem_map.mpr ⟨p, hp, ?_⟩
      simp [h]
    · rw [ha]
      simp [renderGroup]

/-- C5 witness: in the concrete discovery result `wMapWss`, the two
workspaces named `proj` are flagged and emitted as `proj-1`, `proj-2`
(pairwise distinct), while the unique `other` keeps its name. -/
theorem mapping_collision_suffixes_witness :
    (("proj", ["id1", "id2"], true) ∈ mapping_lines wMapWss
      ∧ ((renderGroup wMapWss "proj" ["id1", "id2"]).map fun e => e.display_name)
          = ((List.range 2).map fun i => "proj" ++ "-" ++ Nat.repr (i + 1))
      ∧ (((renderGroup wMapWss "proj" ["id1", "id2"]).map fun e => e.display_name)).Nodup
      ∧ ∀ e ∈ renderGroup wMapWss "proj" ["id1", "id2"], e ∈ suggested_config wMapWss)
    ∧ (("other", ["id3"], false) ∈ mapping_lines wMapWss
      ∧ ((renderGroup wMapWss "other" ["id3"]).map fun e => e.display_name)
          = ["other"]) :=
  ⟨(mapping_collision_suffixes wMapWss ("proj", ["id1", "id2"]) (by decide)).1
      (by decide),
   (mapping_collision_suffixes wMapWss ("other", ["id3"]) (by decide)).2
      (by decide)⟩

/-- C8 -- When the global store does not exist (and discovery itself does
not raise), the run completes: the missing store is reported, the global
mapping is empty, the tracking analysis surfaces zero records, the
recent-projects step reports that no record was found, and `main` returns
normally (the process exits with status 0). -/
theorem run_completes_without_global_store (libs : Libs) (env : Env)
    (hg : env.globalDb = none)
    (hws : ∀ d ∈ env.wsStorage.getD [], ∀ c, d.wsJson = some c →
        (libs.parseWsJson c).isSome) :
    ∃ r, run_full_analysis libs env = Except.ok r
      ∧ pyMain libs env = Except.ok r
      ∧ r.globalMissing = true
      ∧ r.global_data = []
      ∧ r.tracking = []
      ∧ r.recent = RecentOut.notFound := by
  obtain ⟨wss, hok, -, -⟩ :=
    discover_ok_of_parses libs.parseWsJson (env.wsStorage.getD []) hws
  simp only [run_full_analysis, pyMain, hg, hok]
  exact ⟨_, rfl, rfl, rfl, rfl, rfl, rfl⟩

/-- C8 witness: the concrete state `wRunEnv` (no global store, two workspace
directories) runs to completion with an empty global mapping, zero tracking
records and a "not found" recent-projects outcome. -/
theorem run_completes_without_global_store_witness :
    ∃ r, run_full_analysis wRunLibs wRunEnv = Except.ok r
      ∧ pyMain wRunLibs wRunEnv = Except.ok r
      ∧ r.globalMissing = true
      ∧ r.global_data = []
      ∧ r.tracking = []
      ∧ r.recent = RecentOut.notFound :=
  run_completes_without_global_store wRunLibs wRunEnv rfl
    (by
      intro d hd c hc
      simp only [wRunEnv, Option.getD_some, List.mem_cons, List.not_mem_nil,
        or_false] at hd
      rcases hd with rfl | rfl <;> simp_all [wRunLibs, wParseWs])

/-- C1 counterexample -- `main` installs no top-level handler: on the
concrete state `badEnv`, whose one `workspace.json` is malformed, the
uncaught `json.load` exception escapes `main` instead of being caught
there, so the claimed top-level catch does not exist in the code. -/
theorem main_does_not_catch_cex :
    pyMain stubLibs badEnv = Except.error (PyErr.jsonDecodeError "wsX")
      ∧ ¬ ∃ r, pyMain stubLibs badEnv = Except.ok r :=
  ⟨rfl,
   by simp [show pyMain stubLibs badEnv
        = Except.error (PyErr.jsonDecodeError "wsX") from rfl]⟩

/-- C1 (amended) -- `main` contains no `try`/`except`: any exception raised
during the run propagates out of `main` unchanged (the interpreter's
default handler then prints a traceback — not just the message — and exits
non-zero; a keyboard interrupt likewise escapes and produces a stack trace
rather than a clean exit). -/
theorem main_propagates_uncaught (libs : Libs) (env : Env) (e : PyErr)
    (h : run_full_analysis libs env = Except.error e) :
    pyMain libs env = Except.error e := h

/-- C1 (amended) witness: on `badEnv` the `json.load` failure raised during
discovery escapes `main` unchanged. -/
theorem main_propagates_uncaught_witness :
    pyMain stubLibs badEnv = Except.error (PyErr.jsonDecodeError "wsX") :=
  main_propagates_uncaught stubLibs badEnv (PyErr.jsonDecodeError "wsX") rfl
